import Mathlib

/-!
# Verification of the sports-betting arbitrage engine (`sba.go`)

Shallow embedding of the odds aggregation and arbitrage-detection engine.
Go `float64` arithmetic is modelled by exact rationals (`ℚ`); the Go
`map[string]Odds` is modelled by an association list updated in the same
order as the Go loops iterate.
-/

/-- Odds for one game: win/draw/lose payout multipliers (`type Odds struct`). -/
structure Odds where
  win : ℚ
  draw : ℚ
  lose : ℚ
  deriving DecidableEq, Repr

/-- A game as quoted by one bookmaker (`type Game struct`). -/
structure Game where
  id : String
  teamA : String
  teamB : String
  odds : Odds
  eventAt : String
  deriving DecidableEq, Repr

/-- A bookmaker and the games it quotes (`type Bookmaker struct`). -/
structure Bookmaker where
  name : String
  games : List Game
  deriving DecidableEq, Repr

/-- Go's `int(val)` conversion on a float truncates toward zero. -/
def intTrunc (q : ℚ) : ℤ :=
  if q < 0 then ⌈q⌉ else ⌊q⌋

/-- `roundToTwoDecimal`: `float64(int(val*100)) / 100`. -/
def roundToTwoDecimal (val : ℚ) : ℚ :=
  (intTrunc (val * 100) : ℚ) / 100

/-- `calculateArbitragePercentage`: `(1 / odds.Win) + (1 / odds.Draw) + (1 / odds.Lose)`. -/
def calculateArbitragePercentage (odds : Odds) : ℚ :=
  (1 / odds.win) + (1 / odds.draw) + (1 / odds.lose)

/-- `calculateStakes`: returns `(winStake, drawStake, loseStake)`. -/
def calculateStakes (odds : Odds) (totalBet : ℚ) : ℚ × ℚ × ℚ :=
  let arbitragePercentage := calculateArbitragePercentage odds
  ((totalBet / arbitragePercentage) / odds.win,
   (totalBet / arbitragePercentage) / odds.draw,
   (totalBet / arbitragePercentage) / odds.lose)

/-- Lookup in the association list modelling the Go map `bestOdds[game.ID]`. -/
def lookupOdds : List (String × Odds) → String → Option Odds
  | [], _ => none
  | (k, v) :: rest, id => if k = id then some v else lookupOdds rest id

/-- Map assignment `bestOdds[game.ID] = currentBest`: replace the binding if the
key is present, otherwise add it. -/
def insertOdds : List (String × Odds) → String → Odds → List (String × Odds)
  | [], k, v => [(k, v)]
  | (k0, v0) :: rest, k, v =>
      if k0 = k then (k0, v) :: rest else (k0, v0) :: insertOdds rest k v

/-- The body of the inner loop of `findBestOdds` for one `game`: look the id up,
and keep per field the larger of the stored and offered price (the whole quote
when the id is absent, since the zero value makes every `!exists ||` test pass). -/
def bestOddsStep (best : List (String × Odds)) (game : Game) : List (String × Odds) :=
  match lookupOdds best game.id with
  | none => insertOdds best game.id game.odds
  | some currentBest =>
      insertOdds best game.id
        { win := if game.odds.win > currentBest.win then game.odds.win else currentBest.win
          draw := if game.odds.draw > currentBest.draw then game.odds.draw else currentBest.draw
          lose := if game.odds.lose > currentBest.lose then game.odds.lose else currentBest.lose }

/-- `findBestOdds`: fold the per-game update over all games of all bookmakers,
in the order the Go loops visit them. -/
def findBestOdds (bookmakers : List Bookmaker) : List (String × Odds) :=
  bookmakers.foldl (fun best b => b.games.foldl bestOddsStep best) []

/-- One record printed by `findArbitrageOpportunities` for a detected opportunity. -/
structure Opportunity where
  gameID : String
  odds : Odds
  winStake : ℚ
  drawStake : ℚ
  loseStake : ℚ
  guaranteedProfit : ℚ
  deriving DecidableEq, Repr

/-- `findArbitrageOpportunities`: for every entry of the best-odds map whose
arbitrage percentage is `< 1`, report the stakes for the hard-coded
`totalBet := 100.0` and the guaranteed profit. -/
def findArbitrageOpportunities (bookmakers : List Bookmaker) : List Opportunity :=
  (findBestOdds bookmakers).filterMap fun entry =>
    let odds := entry.2
    let arbitragePercentage := calculateArbitragePercentage odds
    if arbitragePercentage < 1 then
      let totalBet : ℚ := 100
      let stakes := calculateStakes odds totalBet
      let totalStake := stakes.1 + stakes.2.1 + stakes.2.2
      some { gameID := entry.1
             odds := odds
             winStake := stakes.1
             drawStake := stakes.2.1
             loseStake := stakes.2.2
             guaranteedProfit := (totalBet / arbitragePercentage) - totalStake }
    else none

/-- All games of all bookmakers, in loop order. -/
def allGames : List Bookmaker → List Game
  | [] => []
  | b :: bs => b.games ++ allGames bs

/-- All odds a list of games quotes for a given event id, in loop order. -/
def quotesOf (gs : List Game) (id : String) : List Odds :=
  gs.filterMap fun g => if g.id = id then some g.odds else none

/-- All odds quoted for a given event id, across all bookmakers, in loop order. -/
def quotesFor (bookmakers : List Bookmaker) (id : String) : List Odds :=
  quotesOf (allGames bookmakers) id

/-- Per-field maximum of two odds records. -/
def oddsMax (a b : Odds) : Odds :=
  ⟨max a.win b.win, max a.draw b.draw, max a.lose b.lose⟩

/-- How one further quote combines with the current state of one map entry. -/
def combineOpt : Option Odds → Odds → Odds
  | none, q => q
  | some c, q => oddsMax c q

/-- Error kind of the arbitrage evaluator (spec section 7). -/
inductive OddsError where
  | invalidOdds
  deriving DecidableEq, Repr

/-- Modelled from the spec: the guarded evaluator of section 4.2 is missing from
the source (`calculateArbitragePercentage` divides unguarded); the spec requires
a zero (or negative) price field to fail with `InvalidOdds` before any division
is performed. -/
def checkedArbitragePercentage (odds : Odds) : Except OddsError ℚ :=
  if odds.win ≤ 0 ∨ odds.draw ≤ 0 ∨ odds.lose ≤ 0 then
    Except.error OddsError.invalidOdds
  else
    Except.ok (calculateArbitragePercentage odds)

/-- Modelled from the spec: in the required pipeline the stake computation runs
only after the odds check succeeds, so a rejected combination never reaches
`calculateStakes`. -/
def checkedEvaluate (odds : Odds) (totalBet : ℚ) : Except OddsError (ℚ × ℚ × ℚ) :=
  match checkedArbitragePercentage odds with
  | Except.error e => Except.error e
  | Except.ok _ => Except.ok (calculateStakes odds totalBet)

/-- The two-bookmaker example of spec section 8: A quotes {2.10, 3.00, 4.00} and
B quotes {1.90, 3.50, 4.20} for the same event id. -/
def exBookmakers : List Bookmaker :=
  [⟨"A", [⟨"e1", "t1", "t2", ⟨21/10, 3, 4⟩, "d"⟩]⟩,
   ⟨"B", [⟨"e1", "t1", "t2", ⟨19/10, 7/2, 21/5⟩, "d"⟩]⟩]

/-- A one-bookmaker collection quoting a single game at odds {4, 4, 4}. -/
def arbBookmakers : List Bookmaker :=
  [⟨"A", [⟨"g1", "x", "y", ⟨4, 4, 4⟩, "t"⟩]⟩]

/-- The opportunity the engine reports on `arbBookmakers`: the arbitrage
percentage is 3/4, each stake is (100 / (3/4)) / 4 = 100/3 and the profit is
400/3 - 100 = 100/3. -/
def arbOpportunity : Opportunity :=
  ⟨"g1", ⟨4, 4, 4⟩, 100/3, 100/3, 100/3, 100/3⟩

/-- The spec's worked example odds {2.10, 3.50, 4.20} offered by one bookmaker. -/
def specExampleBookmakers : List Bookmaker :=
  [⟨"A", [⟨"e1", "t1", "t2", ⟨21/10, 7/2, 21/5⟩, "d"⟩]⟩]

/-! ## Lemmas about the association-list map -/

lemma lookupOdds_insertOdds (m : List (String × Odds)) (k id : String) (v : Odds) :
    lookupOdds (insertOdds m k v) id = if k = id then some v else lookupOdds m id := by
  induction m with
  | nil => simp [insertOdds, lookupOdds]
  | cons p rest ih =>
      obtain ⟨k0, v0⟩ := p
      by_cases hk : k0 = k
      · subst hk
        by_cases hid : k0 = id <;> simp [insertOdds, lookupOdds, hid]
      · by_cases hid : k0 = id
        · subst hid
          have hne : k ≠ k0 := fun h => hk h.symm
          simp [insertOdds, hk, lookupOdds, hne]
        · simp [insertOdds, hk, lookupOdds, hid, ih]

lemma if_gt_eq_max (a b : ℚ) : (if b > a then b else a) = max a b := by
  rcases le_or_lt b a with h | h
  · rw [if_neg (not_lt.mpr h), max_eq_left h]
  · rw [if_pos h, max_eq_right h.le]

lemma lookupOdds_bestOddsStep (m : List (String × Odds)) (g : Game) (id : String) :
    lookupOdds (bestOddsStep m g) id =
      if g.id = id then some (combineOpt (lookupOdds m g.id) g.odds)
      else lookupOdds m id := by
  unfold bestOddsStep
  cases h : lookupOdds m g.id with
  | none => simp [lookupOdds_insertOdds, combineOpt]
  | some c => simp [lookupOdds_insertOdds, combineOpt, if_gt_eq_max, oddsMax]

lemma lookupOdds_foldl_games (gs : List Game) (m : List (String × Odds)) (id : String) :
    lookupOdds (gs.foldl bestOddsStep m) id =
      (quotesOf gs id).foldl (fun o q => some (combineOpt o q)) (lookupOdds m id) := by
  induction gs generalizing m with
  | nil => rfl
  | cons g gs ih =>
      rw [List.foldl_cons, ih]
      by_cases h : g.id = id
      · subst h
        simp [quotesOf, List.filterMap_cons, lookupOdds_bestOddsStep]
      · simp [quotesOf, List.filterMap_cons, h, lookupOdds_bestOddsStep]

lemma findBestOdds_foldl (bs : List Bookmaker) (m : List (String × Odds)) :
    bs.foldl (fun best b => b.games.foldl bestOddsStep best) m
      = (allGames bs).foldl bestOddsStep m := by
  induction bs generalizing m with
  | nil => rfl
  | cons b bs ih => rw [List.foldl_cons, ih, allGames, List.foldl_append]

lemma quotesOf_append (gs gs' : List Game) (id : String) :
    quotesOf (gs ++ gs') id = quotesOf gs id ++ quotesOf gs' id := by
  simp [quotesOf, List.filterMap_append]

lemma lookupOdds_findBestOdds (bs : List Bookmaker) (id : String) :
    lookupOdds (findBestOdds bs) id =
      (quotesFor bs id).foldl (fun o q => some (combineOpt o q)) none := by
  rw [findBestOdds, findBestOdds_foldl, lookupOdds_foldl_games, quotesFor]
  rfl

lemma foldl_combineOpt_some (qs : List Odds) (c : Odds) :
    qs.foldl (fun o q => some (combineOpt o q)) (some c) = some (qs.foldl oddsMax c) := by
  induction qs generalizing c with
  | nil => rfl
  | cons q qs ih =>
      rw [List.foldl_cons, List.foldl_cons]
      exact ih (oddsMax c q)

lemma foldl_oddsMax_win (qs : List Odds) (c : Odds) :
    (qs.foldl oddsMax c).win = qs.foldl (fun a q => max a q.win) c.win := by
  induction qs generalizing c with
  | nil => rfl
  | cons q qs ih => rw [List.foldl_cons, List.foldl_cons, ih]; rfl

lemma foldl_oddsMax_draw (qs : List Odds) (c : Odds) :
    (qs.foldl oddsMax c).draw = qs.foldl (fun a q => max a q.draw) c.draw := by
  induction qs generalizing c with
  | nil => rfl
  | cons q qs ih => rw [List.foldl_cons, List.foldl_cons, ih]; rfl

lemma foldl_oddsMax_lose (qs : List Odds) (c : Odds) :
    (qs.foldl oddsMax c).lose = qs.foldl (fun a q => max a q.lose) c.lose := by
  induction qs generalizing c with
  | nil => rfl
  | cons q qs ih => rw [List.foldl_cons, List.foldl_cons, ih]; rfl

lemma init_le_foldl_max (l : List ℚ) (x : ℚ) : x ≤ l.foldl max x := by
  induction l generalizing x with
  | nil => exact le_refl x
  | cons y l ih => exact le_trans (le_max_left x y) (ih (max x y))

lemma mem_le_foldl_max {l : List ℚ} {y : ℚ} (x : ℚ) (hy : y ∈ l) : y ≤ l.foldl max x := by
  induction l generalizing x with
  | nil => cases hy
  | cons z l ih =>
      rcases List.mem_cons.mp hy with h | h
      · subst h
        exact le_trans (le_max_right x y) (init_le_foldl_max l (max x y))
      · exact ih (max x z) h

lemma foldl_max_init_or_mem (l : List ℚ) (x : ℚ) : l.foldl max x = x ∨ l.foldl max x ∈ l := by
  induction l generalizing x with
  | nil => exact Or.inl rfl
  | cons y l ih =>
      rw [List.foldl_cons]
      rcases ih (max x y) with h | h
      · rcases max_choice x y with hm | hm
        · exact Or.inl (by rw [h, hm])
        · exact Or.inr (by rw [h, hm]; exact List.mem_cons_self y l)
      · exact Or.inr (List.mem_cons_of_mem y h)

lemma insertOdds_ne_nil (m : List (String × Odds)) (k : String) (v : Odds) :
    insertOdds m k v ≠ [] := by
  cases m with
  | nil => simp [insertOdds]
  | cons p rest =>
      obtain ⟨k0, v0⟩ := p
      by_cases h : k0 = k <;> simp [insertOdds, h]

lemma bestOddsStep_ne_nil (m : List (String × Odds)) (g : Game) : bestOddsStep m g ≠ [] := by
  unfold bestOddsStep
  cases lookupOdds m g.id <;> apply insertOdds_ne_nil

lemma foldl_bestOddsStep_eq_nil_iff (gs : List Game) (m : List (String × Odds)) :
    gs.foldl bestOddsStep m = [] ↔ (m = [] ∧ gs = []) := by
  induction gs generalizing m with
  | nil => simp
  | cons g gs ih =>
      rw [List.foldl_cons, ih]
      constructor
      · rintro ⟨h, -⟩
        exact absurd h (bestOddsStep_ne_nil m g)
      · rintro ⟨-, h⟩
        cases h

lemma keys_insertOdds (m : List (String × Odds)) (k : String) (v : Odds) :
    (insertOdds m k v).map Prod.fst =
      if k ∈ m.map Prod.fst then m.map Prod.fst else m.map Prod.fst ++ [k] := by
  induction m with
  | nil => simp [insertOdds]
  | cons p rest ih =>
      obtain ⟨k0, v0⟩ := p
      by_cases h : k0 = k
      · subst h
        simp [insertOdds]
      · have hne : ¬(k = k0) := fun hk => h hk.symm
        simp only [insertOdds, if_neg h, List.map_cons, List.mem_cons, hne, false_or, ih]
        by_cases hmem : k ∈ rest.map Prod.fst <;> simp [hmem]

lemma nodup_keys_insertOdds (m : List (String × Odds)) (k : String) (v : Odds)
    (h : (m.map Prod.fst).Nodup) : ((insertOdds m k v).map Prod.fst).Nodup := by
  rw [keys_insertOdds]
  by_cases hmem : k ∈ m.map Prod.fst
  · rwa [if_pos hmem]
  · rw [if_neg hmem]
    simp [List.nodup_append, h, hmem]

lemma nodup_keys_bestOddsStep (m : List (String × Odds)) (g : Game)
    (h : (m.map Prod.fst).Nodup) : ((bestOddsStep m g).map Prod.fst).Nodup := by
  unfold bestOddsStep
  cases lookupOdds m g.id <;> exact nodup_keys_insertOdds _ _ _ h

lemma nodup_keys_foldl_bestOddsStep (gs : List Game) (m : List (String × Odds))
    (h : (m.map Prod.fst).Nodup) : ((gs.foldl bestOddsStep m).map Prod.fst).Nodup := by
  induction gs generalizing m with
  | nil => exact h
  | cons g gs ih => exact ih _ (nodup_keys_bestOddsStep m g h)

lemma nodup_keys_findBestOdds (bs : List Bookmaker) :
    ((findBestOdds bs).map Prod.fst).Nodup := by
  rw [findBestOdds, findBestOdds_foldl]
  exact nodup_keys_foldl_bestOddsStep _ _ (by simp)

lemma mem_of_lookupOdds_eq_some {m : List (String × Odds)} {k : String} {v : Odds}
    (h : lookupOdds m k = some v) : (k, v) ∈ m := by
  induction m with
  | nil => cases h
  | cons p rest ih =>
      obtain ⟨k0, v0⟩ := p
      by_cases hk : k0 = k
      · subst hk
        rw [lookupOdds, if_pos rfl] at h
        injection h with h
        subst h
        exact List.mem_cons_self _ _
      · rw [lookupOdds, if_neg hk] at h
        exact List.mem_cons_of_mem _ (ih h)

lemma lookupOdds_eq_some_of_mem {m : List (String × Odds)} (hnd : (m.map Prod.fst).Nodup)
    {k : String} {v : Odds} (h : (k, v) ∈ m) : lookupOdds m k = some v := by
  induction m with
  | nil => cases h
  | cons p rest ih =>
      obtain ⟨k0, v0⟩ := p
      rw [List.map_cons, List.nodup_cons] at hnd
      rcases List.mem_cons.mp h with h1 | h1
      · cases h1
        simp [lookupOdds]
      · have hk : k0 ≠ k := by
          intro he
          subst he
          exact hnd.1 (by simpa using List.mem_map_of_mem Prod.fst h1)
        rw [lookupOdds, if_neg hk]
        exact ih hnd.2 h1

lemma quotesOf_eq_nil_iff (gs : List Game) (id : String) :
    quotesOf gs id = [] ↔ ∀ g ∈ gs, g.id ≠ id := by
  rw [quotesOf, List.filterMap_eq_nil_iff]
  constructor
  · intro h g hg hid
    have := h g hg
    rw [if_pos hid] at this
    cases this
  · intro h g hg
    rw [if_neg (h g hg)]

lemma allGames_eq_nil_iff (bs : List Bookmaker) :
    allGames bs = [] ↔ ∀ b ∈ bs, b.games = [] := by
  induction bs with
  | nil => simp [allGames]
  | cons b bs ih => simp [allGames, ih]

lemma lookupOdds_findBestOdds_of_quotes (bs : List Bookmaker) (id : String) (q : Odds)
    (qs : List Odds) (h : quotesFor bs id = q :: qs) :
    lookupOdds (findBestOdds bs) id = some (qs.foldl oddsMax q) := by
  rw [lookupOdds_findBestOdds, h, List.foldl_cons]
  exact foldl_combineOpt_some qs q

lemma lookupOdds_findBestOdds_eq_none_iff (bs : List Bookmaker) (id : String) :
    lookupOdds (findBestOdds bs) id = none ↔ quotesFor bs id = [] := by
  cases h : quotesFor bs id with
  | nil =>
      rw [lookupOdds_findBestOdds, h]
      simp
  | cons q qs =>
      rw [lookupOdds_findBestOdds_of_quotes bs id q qs h]
      simp

lemma foldl_oddsMax_win_eq (qs : List Odds) (c : Odds) :
    (qs.foldl oddsMax c).win = (qs.map Odds.win).foldl max c.win := by
  rw [foldl_oddsMax_win, List.foldl_map]

lemma foldl_oddsMax_draw_eq (qs : List Odds) (c : Odds) :
    (qs.foldl oddsMax c).draw = (qs.map Odds.draw).foldl max c.draw := by
  rw [foldl_oddsMax_draw, List.foldl_map]

lemma foldl_oddsMax_lose_eq (qs : List Odds) (c : Odds) :
    (qs.foldl oddsMax c).lose = (qs.map Odds.lose).foldl max c.lose := by
  rw [foldl_oddsMax_lose, List.foldl_map]

/-! ## Claim theorems -/

/-- C1: for every collection of bookmakers and every event id quoted by at least
one bookmaker, the entry `findBestOdds` stores for that id has each of its three
fields equal to the maximum of that field over all quotes carrying that id
(fields maximized independently); consequently the stored value of each field is
`≥` every individual bookmaker's value for that field and that event. -/
theorem findBestOdds_entry_fieldwise_max (bs : List Bookmaker) (id : String)
    (h : quotesFor bs id ≠ []) :
    ∃ o, lookupOdds (findBestOdds bs) id = some o ∧
      (∀ q ∈ quotesFor bs id, q.win ≤ o.win ∧ q.draw ≤ o.draw ∧ q.lose ≤ o.lose) ∧
      (∃ q ∈ quotesFor bs id, o.win = q.win) ∧
      (∃ q ∈ quotesFor bs id, o.draw = q.draw) ∧
      (∃ q ∈ quotesFor bs id, o.lose = q.lose) := by
  cases hq : quotesFor bs id with
  | nil => exact absurd hq h
  | cons q qs =>
      refine ⟨qs.foldl oddsMax q, lookupOdds_findBestOdds_of_quotes bs id q qs hq,
        ?_, ?_, ?_, ?_⟩
      · intro p hp
        rw [List.mem_cons] at hp
        refine ⟨?_, ?_, ?_⟩
        · rw [foldl_oddsMax_win_eq]
          rcases hp with h1 | h1
          · rw [h1]
            exact init_le_foldl_max _ _
          · exact mem_le_foldl_max _ (List.mem_map_of_mem Odds.win h1)
        · rw [foldl_oddsMax_draw_eq]
          rcases hp with h1 | h1
          · rw [h1]
            exact init_le_foldl_max _ _
          · exact mem_le_foldl_max _ (List.mem_map_of_mem Odds.draw h1)
        · rw [foldl_oddsMax_lose_eq]
          rcases hp with h1 | h1
          · rw [h1]
            exact init_le_foldl_max _ _
          · exact mem_le_foldl_max _ (List.mem_map_of_mem Odds.lose h1)
      · rcases foldl_max_init_or_mem (qs.map Odds.win) q.win with h1 | h1
        · exact ⟨q, List.mem_cons_self q qs, by rw [foldl_oddsMax_win_eq, h1]⟩
        · obtain ⟨p, hp, hpw⟩ := List.mem_map.mp h1
          exact ⟨p, List.mem_cons_of_mem q hp, by rw [foldl_oddsMax_win_eq, hpw]⟩
      · rcases foldl_max_init_or_mem (qs.map Odds.draw) q.draw with h1 | h1
        · exact ⟨q, List.mem_cons_self q qs, by rw [foldl_oddsMax_draw_eq, h1]⟩
        · obtain ⟨p, hp, hpw⟩ := List.mem_map.mp h1
          exact ⟨p, List.mem_cons_of_mem q hp, by rw [foldl_oddsMax_draw_eq, hpw]⟩
      · rcases foldl_max_init_or_mem (qs.map Odds.lose) q.lose with h1 | h1
        · exact ⟨q, List.mem_cons_self q qs, by rw [foldl_oddsMax_lose_eq, h1]⟩
        · obtain ⟨p, hp, hpw⟩ := List.mem_map.mp h1
          exact ⟨p, List.mem_cons_of_mem q hp, by rw [foldl_oddsMax_lose_eq, hpw]⟩

lemma mem_findArbitrageOpportunities_iff (bs : List Bookmaker) (op : Opportunity) :
    op ∈ findArbitrageOpportunities bs ↔
      ∃ entry ∈ findBestOdds bs,
        calculateArbitragePercentage entry.2 < 1 ∧
        op = { gameID := entry.1
               odds := entry.2
               winStake := (calculateStakes entry.2 100).1
               drawStake := (calculateStakes entry.2 100).2.1
               loseStake := (calculateStakes entry.2 100).2.2
               guaranteedProfit := 100 / calculateArbitragePercentage entry.2 -
                 ((calculateStakes entry.2 100).1 + (calculateStakes entry.2 100).2.1 +
                  (calculateStakes entry.2 100).2.2) } := by
  rw [findArbitrageOpportunities, List.mem_filterMap]
  constructor
  · rintro ⟨entry, hmem, hf⟩
    by_cases hlt : calculateArbitragePercentage entry.2 < 1
    · refine ⟨entry, hmem, hlt, ?_⟩
      simp only [if_pos hlt, Option.some.injEq] at hf
      exact hf.symm
    · simp only [if_neg hlt] at hf
      exact Option.noConfusion hf
  · rintro ⟨entry, hmem, hlt, hop⟩
    refine ⟨entry, hmem, ?_⟩
    simp only [if_pos hlt, Option.some.injEq]
    exact hop.symm

/-- C9: the key set of the map built by `findBestOdds` is exactly the set of game
ids occurring in some bookmaker's games list; the map is empty iff every
bookmaker's games list is empty; and each id is bound at most once, so duplicate
quotes for one id are all folded into that id's single entry. -/
theorem findBestOdds_key_set (bs : List Bookmaker) :
    (∀ id, (lookupOdds (findBestOdds bs) id).isSome ↔ ∃ g ∈ allGames bs, g.id = id) ∧
    (findBestOdds bs = [] ↔ ∀ b ∈ bs, b.games = []) ∧
    ((findBestOdds bs).map Prod.fst).Nodup := by
  refine ⟨?_, ?_, nodup_keys_findBestOdds bs⟩
  · intro id
    by_cases hq : quotesFor bs id = []
    · rw [(lookupOdds_findBestOdds_eq_none_iff bs id).mpr hq]
      simp only [Option.isSome_none, Bool.false_eq_true, false_iff]
      rintro ⟨g, hg, hgid⟩
      exact (quotesOf_eq_nil_iff (allGames bs) id).mp hq g hg hgid
    · cases hq2 : quotesFor bs id with
      | nil => exact absurd hq2 hq
      | cons q qs =>
          rw [lookupOdds_findBestOdds_of_quotes bs id q qs hq2]
          simp only [Option.isSome_some, true_iff]
          by_contra hex
          push_neg at hex
          have hnil : quotesFor bs id = [] := (quotesOf_eq_nil_iff (allGames bs) id).mpr hex
          rw [hq2] at hnil
          cases hnil
  · rw [findBestOdds, findBestOdds_foldl, foldl_bestOddsStep_eq_nil_iff]
    simp [allGames_eq_nil_iff]

/-- C2: the arbitrage percentage computed by `calculateArbitragePercentage` is
`1/win + 1/draw + 1/lose`, and `findArbitrageOpportunities` reports an event of
the best-odds map as an arbitrage opportunity iff that sum is strictly below 1. -/
theorem arbitrage_reported_iff (bs : List Bookmaker) (id : String) (o : Odds)
    (h : lookupOdds (findBestOdds bs) id = some o) :
    calculateArbitragePercentage o = 1 / o.win + 1 / o.draw + 1 / o.lose ∧
    ((∃ op ∈ findArbitrageOpportunities bs, op.gameID = id) ↔
      1 / o.win + 1 / o.draw + 1 / o.lose < 1) := by
  refine ⟨rfl, ?_, ?_⟩
  · rintro ⟨op, hop, hid⟩
    obtain ⟨entry, hmem, hlt, hopeq⟩ := (mem_findArbitrageOpportunities_iff bs op).mp hop
    have hgid : entry.1 = id := by
      rw [hopeq] at hid
      exact hid
    have hmem' : (id, entry.2) ∈ findBestOdds bs := by
      rw [← hgid]
      exact hmem
    have hl : lookupOdds (findBestOdds bs) id = some entry.2 :=
      lookupOdds_eq_some_of_mem (nodup_keys_findBestOdds bs) hmem'
    rw [h, Option.some.injEq] at hl
    rw [hl]
    exact hlt
  · intro hlt
    have hmem : (id, o) ∈ findBestOdds bs := mem_of_lookupOdds_eq_some h
    exact ⟨⟨id, o, (calculateStakes o 100).1, (calculateStakes o 100).2.1,
        (calculateStakes o 100).2.2,
        100 / calculateArbitragePercentage o -
          ((calculateStakes o 100).1 + (calculateStakes o 100).2.1 +
           (calculateStakes o 100).2.2)⟩,
      (mem_findArbitrageOpportunities_iff bs _).mpr ⟨(id, o), hmem, hlt, rfl⟩, rfl⟩

lemma calculateStakes_sum (odds : Odds) (totalBet : ℚ)
    (ha : calculateArbitragePercentage odds ≠ 0) :
    (calculateStakes odds totalBet).1 + (calculateStakes odds totalBet).2.1 +
      (calculateStakes odds totalBet).2.2 = totalBet := by
  simp only [calculateStakes]
  have h1 : totalBet / calculateArbitragePercentage odds / odds.win +
      totalBet / calculateArbitragePercentage odds / odds.draw +
      totalBet / calculateArbitragePercentage odds / odds.lose =
      totalBet / calculateArbitragePercentage odds * calculateArbitragePercentage odds := by
    rw [calculateArbitragePercentage]
    ring
  rw [h1, div_mul_cancel₀ _ ha]

/-- C3: for every odds combination with nonzero prices, arbitrage percentage
below 1 and positive total bet, the payout `stake[o] * price[o]` is the same for
each of the three outcomes and equals `total_bet / arbitrage_percentage`,
exactly (prices are exact rationals in this model, so the exact identity
subsumes the stated floating-point tolerance). -/
theorem calculateStakes_payouts_equal (odds : Odds) (totalBet : ℚ)
    (hw : odds.win ≠ 0) (hd : odds.draw ≠ 0) (hl : odds.lose ≠ 0)
    (harb : calculateArbitragePercentage odds < 1) (ht : 0 < totalBet) :
    (calculateStakes odds totalBet).1 * odds.win
        = totalBet / calculateArbitragePercentage odds ∧
    (calculateStakes odds totalBet).2.1 * odds.draw
        = totalBet / calculateArbitragePercentage odds ∧
    (calculateStakes odds totalBet).2.2 * odds.lose
        = totalBet / calculateArbitragePercentage odds := by
  refine ⟨?_, ?_, ?_⟩
  · simp only [calculateStakes]
    exact div_mul_cancel₀ _ hw
  · simp only [calculateStakes]
    exact div_mul_cancel₀ _ hd
  · simp only [calculateStakes]
    exact div_mul_cancel₀ _ hl

/-- C4: `calculateStakes` returns `stake[o] = (total_bet / arbitrage_percentage)
/ price[o]` for each outcome, and every reported opportunity's guaranteed profit
equals `total_bet / arbitrage_percentage` minus the sum of the three stakes
(with the code's hard-coded total bet of 100). -/
theorem calculateStakes_formula_and_profit (odds : Odds) (totalBet : ℚ)
    (hw : odds.win ≠ 0) (hd : odds.draw ≠ 0) (hl : odds.lose ≠ 0)
    (bs : List Bookmaker) (op : Opportunity)
    (hop : op ∈ findArbitrageOpportunities bs) :
    calculateStakes odds totalBet =
      ((totalBet / (1 / odds.win + 1 / odds.draw + 1 / odds.lose)) / odds.win,
       (totalBet / (1 / odds.win + 1 / odds.draw + 1 / odds.lose)) / odds.draw,
       (totalBet / (1 / odds.win + 1 / odds.draw + 1 / odds.lose)) / odds.lose) ∧
    op.guaranteedProfit =
      100 / calculateArbitragePercentage op.odds -
        (op.winStake + op.drawStake + op.loseStake) := by
  constructor
  · rfl
  · obtain ⟨entry, hmem, hlt, hopeq⟩ := (mem_findArbitrageOpportunities_iff bs op).mp hop
    rw [hopeq]

/-- C8 as stated is false: at odds {1, 1, -1/2} all three prices are nonzero,
yet the arbitrage percentage is 1/1 + 1/1 + 1/(-1/2) = 0, and the three stakes
returned for a total bet of 100 sum to 0, not 100 (Go's float64 evaluation
divides 100 by 0.0 there, and the resulting stake sum is NaN, likewise not 100). -/
theorem calculateStakes_sum_counterexample :
    (⟨1, 1, -1/2⟩ : Odds).win ≠ 0 ∧ (⟨1, 1, -1/2⟩ : Odds).draw ≠ 0 ∧
    (⟨1, 1, -1/2⟩ : Odds).lose ≠ 0 ∧
    calculateArbitragePercentage ⟨1, 1, -1/2⟩ = 0 ∧
    ¬ ((calculateStakes ⟨1, 1, -1/2⟩ 100).1 + (calculateStakes ⟨1, 1, -1/2⟩ 100).2.1 +
        (calculateStakes ⟨1, 1, -1/2⟩ 100).2.2 = 100) := by
  norm_num [calculateArbitragePercentage, calculateStakes]

/-- C8 amended: for every odds combination with all three prices nonzero and
nonzero arbitrage percentage, the three stakes sum exactly to the total bet, so
the guaranteed profit of a reported opportunity with such odds is
`100 * (1/arbitrage_percentage - 1)`; the spec's worked example, whose stakes
51.02 + 30.61 + 25.51 sum to 107.14 for a total bet of 100, contradicts this. -/
theorem calculateStakes_sum_and_profit_amended (odds : Odds) (totalBet : ℚ)
    (hw : odds.win ≠ 0) (hd : odds.draw ≠ 0) (hl : odds.lose ≠ 0)
    (ha : calculateArbitragePercentage odds ≠ 0)
    (bs : List Bookmaker) (op : Opportunity)
    (hop : op ∈ findArbitrageOpportunities bs)
    (hw2 : op.odds.win ≠ 0) (hd2 : op.odds.draw ≠ 0) (hl2 : op.odds.lose ≠ 0)
    (ha2 : calculateArbitragePercentage op.odds ≠ 0) :
    (calculateStakes odds totalBet).1 + (calculateStakes odds totalBet).2.1 +
        (calculateStakes odds totalBet).2.2 = totalBet ∧
    op.guaranteedProfit = 100 * (1 / calculateArbitragePercentage op.odds - 1) ∧
    (5102 / 100 + 3061 / 100 + 2551 / 100 : ℚ) ≠ 100 := by
  refine ⟨calculateStakes_sum odds totalBet ha, ?_, by norm_num⟩
  obtain ⟨entry, hmem, hlt, hopeq⟩ := (mem_findArbitrageOpportunities_iff bs op).mp hop
  have ha2' : calculateArbitragePercentage entry.2 ≠ 0 := by rw [hopeq] at ha2; exact ha2
  have hsum := calculateStakes_sum entry.2 100 ha2'
  rw [hopeq]
  show 100 / calculateArbitragePercentage entry.2 -
      ((calculateStakes entry.2 100).1 + (calculateStakes entry.2 100).2.1 +
       (calculateStakes entry.2 100).2.2)
    = 100 * (1 / calculateArbitragePercentage entry.2 - 1)
  rw [hsum]
  ring

lemma findBestOdds_arbBookmakers : findBestOdds arbBookmakers = [("g1", ⟨4, 4, 4⟩)] := by
  simp [findBestOdds, arbBookmakers, bestOddsStep, lookupOdds, insertOdds]

lemma lookupOdds_arbBookmakers :
    lookupOdds (findBestOdds arbBookmakers) "g1" = some ⟨4, 4, 4⟩ := by
  rw [findBestOdds_arbBookmakers]
  simp [lookupOdds]

lemma findArbitrageOpportunities_arbBookmakers :
    findArbitrageOpportunities arbBookmakers = [arbOpportunity] := by
  rw [findArbitrageOpportunities, findBestOdds_arbBookmakers]
  norm_num [List.filterMap, calculateArbitragePercentage, calculateStakes, arbOpportunity]

lemma findBestOdds_specExampleBookmakers :
    findBestOdds specExampleBookmakers = [("e1", ⟨21/10, 7/2, 21/5⟩)] := by
  simp [findBestOdds, specExampleBookmakers, bestOddsStep, lookupOdds, insertOdds]

/-- C5: the spec-mandated evaluator rejects a combination with a zero price
field with `InvalidOdds`, and the stake computation is never reached for it; the
source has no such guard (`calculateArbitragePercentage` divides by the field). -/
theorem zero_odds_rejected (odds : Odds)
    (h : odds.win = 0 ∨ odds.draw = 0 ∨ odds.lose = 0) :
    checkedArbitragePercentage odds = Except.error OddsError.invalidOdds ∧
    checkedEvaluate odds 100 = Except.error OddsError.invalidOdds := by
  have hcond : odds.win ≤ 0 ∨ odds.draw ≤ 0 ∨ odds.lose ≤ 0 := by
    rcases h with h | h | h
    · exact Or.inl (le_of_eq h)
    · exact Or.inr (Or.inl (le_of_eq h))
    · exact Or.inr (Or.inr (le_of_eq h))
  have h1 : checkedArbitragePercentage odds = Except.error OddsError.invalidOdds := by
    rw [checkedArbitragePercentage, if_pos hcond]
  refine ⟨h1, ?_⟩
  rw [checkedEvaluate, h1]

/-- Witness for C5 at the failing input {win: 0, draw: 3.50, lose: 4.20}. -/
theorem zero_odds_rejected_witness :
    ((⟨0, 7/2, 21/5⟩ : Odds).win = 0 ∨ (⟨0, 7/2, 21/5⟩ : Odds).draw = 0 ∨
      (⟨0, 7/2, 21/5⟩ : Odds).lose = 0) ∧
    (checkedArbitragePercentage ⟨0, 7/2, 21/5⟩ = Except.error OddsError.invalidOdds ∧
     checkedEvaluate ⟨0, 7/2, 21/5⟩ 100 = Except.error OddsError.invalidOdds) :=
  ⟨Or.inl rfl, zero_odds_rejected ⟨0, 7/2, 21/5⟩ (Or.inl rfl)⟩

/-- C6 as stated is false: for the odds {2.10, 3.50, 4.20} the arbitrage
percentage 1/2.10 + 1/3.50 + 1/4.20 equals exactly 1 (10/21 + 6/21 + 5/21), so
it is not approximately 0.9324, it is not strictly less than 1, and a collection
quoting exactly these odds produces no reported opportunity. -/
theorem specExample_percentage_is_one :
    calculateArbitragePercentage ⟨21/10, 7/2, 21/5⟩ = 1 ∧
    ¬ calculateArbitragePercentage ⟨21/10, 7/2, 21/5⟩ < 1 ∧
    findArbitrageOpportunities specExampleBookmakers = [] := by
  refine ⟨by norm_num [calculateArbitragePercentage],
    by norm_num [calculateArbitragePercentage], ?_⟩
  rw [findArbitrageOpportunities, findBestOdds_specExampleBookmakers]
  norm_num [List.filterMap, calculateArbitragePercentage]

/-- C6 amended: for the odds {2.10, 3.50, 4.20} the arbitrage percentage equals
exactly 1, which is not strictly less than 1, so an event whose best odds are
exactly these is not flagged as an arbitrage opportunity. -/
theorem specExample_not_flagged (bs : List Bookmaker) (id : String)
    (h : lookupOdds (findBestOdds bs) id = some ⟨21/10, 7/2, 21/5⟩) :
    calculateArbitragePercentage ⟨21/10, 7/2, 21/5⟩ = 1 ∧
    ∀ op ∈ findArbitrageOpportunities bs, op.gameID ≠ id := by
  refine ⟨by norm_num [calculateArbitragePercentage], ?_⟩
  intro op hop hid
  obtain ⟨entry, hmem, hlt, hopeq⟩ := (mem_findArbitrageOpportunities_iff bs op).mp hop
  have hgid : entry.1 = id := by
    rw [hopeq] at hid
    exact hid
  have hmem' : (id, entry.2) ∈ findBestOdds bs := by
    rw [← hgid]
    exact hmem
  have hl2 : lookupOdds (findBestOdds bs) id = some entry.2 :=
    lookupOdds_eq_some_of_mem (nodup_keys_findBestOdds bs) hmem'
  rw [h, Option.some.injEq] at hl2
  rw [← hl2] at hlt
  norm_num [calculateArbitragePercentage] at hlt

/-- Witness for the amended C6 on a concrete collection quoting those odds. -/
theorem specExample_not_flagged_witness :
    lookupOdds (findBestOdds specExampleBookmakers) "e1" = some ⟨21/10, 7/2, 21/5⟩ ∧
    (calculateArbitragePercentage ⟨21/10, 7/2, 21/5⟩ = 1 ∧
     ∀ op ∈ findArbitrageOpportunities specExampleBookmakers, op.gameID ≠ "e1") := by
  have h : lookupOdds (findBestOdds specExampleBookmakers) "e1"
      = some ⟨21/10, 7/2, 21/5⟩ := by
    rw [findBestOdds_specExampleBookmakers]
    simp [lookupOdds]
  exact ⟨h, specExample_not_flagged specExampleBookmakers "e1" h⟩

/-- C7: for non-negative inputs `roundToTwoDecimal` truncates toward zero on the
value scaled by 100, i.e. returns `floor(value * 100) / 100`. -/
theorem roundToTwoDecimal_nonneg (val : ℚ) (h : 0 ≤ val) :
    roundToTwoDecimal val = (⌊val * 100⌋ : ℚ) / 100 := by
  rw [roundToTwoDecimal, intTrunc, if_neg (not_lt.mpr (mul_nonneg h (by norm_num)))]

/-- Witness for C7 at 1.237, which rounds down to 1.23. -/
theorem roundToTwoDecimal_nonneg_witness :
    (0 : ℚ) ≤ 1237/1000 ∧
    roundToTwoDecimal (1237/1000) = (⌊(1237/1000 : ℚ) * 100⌋ : ℚ) / 100 ∧
    roundToTwoDecimal (1237/1000) = 123/100 := by
  refine ⟨by norm_num, roundToTwoDecimal_nonneg (1237/1000) (by norm_num), ?_⟩
  norm_num [roundToTwoDecimal, intTrunc]

/-- C10: for strictly negative inputs `roundToTwoDecimal` rounds toward zero,
returning `ceil(value * 100) / 100` rather than `floor(value * 100) / 100`. -/
theorem roundToTwoDecimal_neg (val : ℚ) (h : val < 0) :
    roundToTwoDecimal val = (⌈val * 100⌉ : ℚ) / 100 := by
  rw [roundToTwoDecimal, intTrunc, if_pos (mul_neg_of_neg_of_pos h (by norm_num))]

/-- Witness for C10 at -1.237, which maps to -1.23 and not to
`floor(-123.7)/100 = -1.24`. -/
theorem roundToTwoDecimal_neg_witness :
    (-1237/1000 : ℚ) < 0 ∧
    roundToTwoDecimal (-1237/1000) = (⌈(-1237/1000 : ℚ) * 100⌉ : ℚ) / 100 ∧
    roundToTwoDecimal (-1237/1000) = -123/100 ∧
    roundToTwoDecimal (-1237/1000) ≠ (⌊(-1237/1000 : ℚ) * 100⌋ : ℚ) / 100 := by
  have h2 : roundToTwoDecimal (-1237/1000) = -123/100 := by
    norm_num [roundToTwoDecimal, intTrunc]
    rw [Int.ceil_neg]
    norm_num
  have hc : (⌈(1237/10 : ℚ)⌉ : ℤ) = 124 := by
    rw [Int.ceil_eq_iff]
    norm_num
  have h3 : (⌊(-1237/1000 : ℚ) * 100⌋ : ℤ) = -124 := by
    rw [show ((-1237/1000 : ℚ) * 100) = -(1237/10) by norm_num, Int.floor_neg, hc]
  refine ⟨by norm_num, roundToTwoDecimal_neg (-1237/1000) (by norm_num), h2, ?_⟩
  rw [h2, h3]
  norm_num

/-- Witness for C1 on the spec's two-bookmaker example for event "e1". -/
theorem findBestOdds_entry_fieldwise_max_witness :
    quotesFor exBookmakers "e1" ≠ [] ∧
    (∃ o, lookupOdds (findBestOdds exBookmakers) "e1" = some o ∧
      (∀ q ∈ quotesFor exBookmakers "e1",
        q.win ≤ o.win ∧ q.draw ≤ o.draw ∧ q.lose ≤ o.lose) ∧
      (∃ q ∈ quotesFor exBookmakers "e1", o.win = q.win) ∧
      (∃ q ∈ quotesFor exBookmakers "e1", o.draw = q.draw) ∧
      (∃ q ∈ quotesFor exBookmakers "e1", o.lose = q.lose)) := by
  have hq : quotesFor exBookmakers "e1" ≠ [] := by
    simp [quotesFor, quotesOf, allGames, exBookmakers]
  exact ⟨hq, findBestOdds_entry_fieldwise_max exBookmakers "e1" hq⟩

/-- Witness for C2 on the one-bookmaker collection with odds {4, 4, 4}. -/
theorem arbitrage_reported_iff_witness :
    lookupOdds (findBestOdds arbBookmakers) "g1" = some ⟨4, 4, 4⟩ ∧
    (calculateArbitragePercentage ⟨4, 4, 4⟩ = 1/(4:ℚ) + 1/4 + 1/4 ∧
     ((∃ op ∈ findArbitrageOpportunities arbBookmakers, op.gameID = "g1") ↔
       1/(4:ℚ) + 1/4 + 1/4 < 1)) :=
  ⟨lookupOdds_arbBookmakers,
    arbitrage_reported_iff arbBookmakers "g1" ⟨4, 4, 4⟩ lookupOdds_arbBookmakers⟩

/-- Witness for C3 at odds {4, 4, 4} and a total bet of 100. -/
theorem calculateStakes_payouts_equal_witness :
    ((4:ℚ) ≠ 0) ∧ calculateArbitragePercentage ⟨4, 4, 4⟩ < 1 ∧ ((0:ℚ) < 100) ∧
    ((calculateStakes ⟨4, 4, 4⟩ 100).1 * (4:ℚ)
        = 100 / calculateArbitragePercentage ⟨4, 4, 4⟩ ∧
     (calculateStakes ⟨4, 4, 4⟩ 100).2.1 * (4:ℚ)
        = 100 / calculateArbitragePercentage ⟨4, 4, 4⟩ ∧
     (calculateStakes ⟨4, 4, 4⟩ 100).2.2 * (4:ℚ)
        = 100 / calculateArbitragePercentage ⟨4, 4, 4⟩) := by
  have harb : calculateArbitragePercentage ⟨4, 4, 4⟩ < 1 := by
    norm_num [calculateArbitragePercentage]
  exact ⟨by norm_num, harb, by norm_num,
    calculateStakes_payouts_equal ⟨4, 4, 4⟩ 100 (by norm_num) (by norm_num) (by norm_num)
      harb (by norm_num)⟩

/-- Witness for C4 at odds {4, 4, 4}, a total bet of 100 and the reported
opportunity on `arbBookmakers`. -/
theorem calculateStakes_formula_and_profit_witness :
    ((4:ℚ) ≠ 0) ∧ arbOpportunity ∈ findArbitrageOpportunities arbBookmakers ∧
    (calculateStakes ⟨4, 4, 4⟩ 100 =
      ((100 / (1/(4:ℚ) + 1/4 + 1/4)) / 4,
       (100 / (1/(4:ℚ) + 1/4 + 1/4)) / 4,
       (100 / (1/(4:ℚ) + 1/4 + 1/4)) / 4) ∧
     arbOpportunity.guaranteedProfit =
       100 / calculateArbitragePercentage arbOpportunity.odds -
         (arbOpportunity.winStake + arbOpportunity.drawStake + arbOpportunity.loseStake)) := by
  have hop : arbOpportunity ∈ findArbitrageOpportunities arbBookmakers := by
    rw [findArbitrageOpportunities_arbBookmakers]
    exact List.mem_singleton.mpr rfl
  exact ⟨by norm_num, hop,
    calculateStakes_formula_and_profit ⟨4, 4, 4⟩ 100 (by norm_num) (by norm_num) (by norm_num)
      arbBookmakers arbOpportunity hop⟩

/-- Witness for the amended C8 at odds {4, 4, 4}, a total bet of 100 and the
reported opportunity on `arbBookmakers`. -/
theorem calculateStakes_sum_and_profit_amended_witness :
    ((4:ℚ) ≠ 0) ∧ calculateArbitragePercentage ⟨4, 4, 4⟩ ≠ 0 ∧
    arbOpportunity ∈ findArbitrageOpportunities arbBookmakers ∧
    calculateArbitragePercentage arbOpportunity.odds ≠ 0 ∧
    ((calculateStakes ⟨4, 4, 4⟩ 100).1 + (calculateStakes ⟨4, 4, 4⟩ 100).2.1 +
        (calculateStakes ⟨4, 4, 4⟩ 100).2.2 = 100 ∧
     arbOpportunity.guaranteedProfit =
       100 * (1 / calculateArbitragePercentage arbOpportunity.odds - 1) ∧
     (5102 / 100 + 3061 / 100 + 2551 / 100 : ℚ) ≠ 100) := by
  have hop : arbOpportunity ∈ findArbitrageOpportunities arbBookmakers := by
    rw [findArbitrageOpportunities_arbBookmakers]
    exact List.mem_singleton.mpr rfl
  have ha : calculateArbitragePercentage ⟨4, 4, 4⟩ ≠ 0 := by
    norm_num [calculateArbitragePercentage]
  have ha2 : calculateArbitragePercentage arbOpportunity.odds ≠ 0 := by
    norm_num [arbOpportunity, calculateArbitragePercentage]
  exact ⟨by norm_num, ha, hop, ha2,
    calculateStakes_sum_and_profit_amended ⟨4, 4, 4⟩ 100 (by norm_num) (by norm_num)
      (by norm_num) ha arbBookmakers arbOpportunity hop (by norm_num [arbOpportunity])
      (by norm_num [arbOpportunity]) (by norm_num [arbOpportunity]) ha2⟩